import Mathlib

/-!
Verification of slice/discord.py-lifesaver against its specification.

The development shallowly embeds the relevant parts of the repository:

* `src/lifesaver/utils/paginator.py` — the reaction-driven pager
  (`Paginator` / `ListPaginator`): page state, `previous` / `next` /
  `stop` / `update`, the reaction filter, and page slicing.
* `src/lifesaver/bot/cog.py` — the periodic scheduler
  (`Cog.every` and `Cog._setup_schedules`): the schedule dict built by the
  decorator and the sleep/invoke trace of the wrapped loop.
* `src/lifesaver/config.py` — the `Config` loader: declared `Field`s,
  required-field and type checks, and value binding.

Machine integers are modelled as `Nat`/`Int`; awaited network calls are
modelled by their observable outcome (for example `EditResult` for a
message edit); async traces are modelled as explicit event lists.
-/

namespace Lifesaver

/-! ### Generic string-keyed dictionaries

Python `dict` objects are modelled as association lists with unique keys.
`setKey` models item assignment (replace the existing binding in place, or
append), and `dictUpdate` models `dict.update` (later entries win). -/

def setKey {α : Type} : List (String × α) → String × α → List (String × α)
  | [], kv => [kv]
  | (k, v) :: rest, kv => if k = kv.1 then kv :: rest else (k, v) :: setKey rest kv

def dictUpdate {α : Type} (d : List (String × α)) (new : List (String × α)) :
    List (String × α) :=
  new.foldl setKey d

def containsKey {α : Type} (d : List (String × α)) (k : String) : Bool :=
  d.any (fun p => p.1 == k)

/-! ### Pager model — `src/lifesaver/utils/paginator.py`

A `PagState` carries the fields of a `ListPaginator` that the claims are
about: the length of `self.things`, `self.per_page`, `self.page` and
`self.stopped`.  The awaited `self.message.edit` call inside `update` is
modelled by an `EditResult` argument (`ok`, or `notFound` for a raised
`discord.NotFound`).  Each operation returns the new state together with a
`Bool` recording whether a re-render (a `message.edit` call) was attempted. -/

inductive EditResult where
  | ok
  | notFound
deriving DecidableEq, Repr

structure PagState where
  nItems : Nat
  perPage : Nat
  page : Nat
  stopped : Bool
deriving DecidableEq, Repr

/-- `ListPaginator.max_pages`: `ceil(len(self.things) / self.per_page)`,
written with natural-number arithmetic as `(n + p - 1) / p`. -/
def max_pages (s : PagState) : Nat :=
  (s.nItems + s.perPage - 1) / s.perPage

/-- `Paginator.update`: return immediately when stopped; otherwise edit the
message, and on `discord.NotFound` set `self.stopped = True`. -/
def update (s : PagState) (e : EditResult) : PagState × Bool :=
  if s.stopped then (s, false)
  else
    match e with
    | .ok => (s, true)
    | .notFound => ({ s with stopped := true }, true)

/-- `Paginator.previous`: no-op at page 0, otherwise decrement and update. -/
def previous (s : PagState) (e : EditResult) : PagState × Bool :=
  if s.page = 0 then (s, false)
  else update { s with page := s.page - 1 } e

/-- `Paginator.next`: no-op when `self.page == self.max_pages - 1` (a Python
integer comparison, hence taken in `Int`), otherwise increment and update. -/
def next (s : PagState) (e : EditResult) : PagState × Bool :=
  if (s.page : Int) = (max_pages s : Int) - 1 then (s, false)
  else update { s with page := s.page + 1 } e

/-- `Paginator.stop`: delete the message and set `self.stopped = True`. -/
def stop (s : PagState) : PagState :=
  { s with stopped := true }

/-- The pager state constructed by `Paginator.__init__` /
`ListPaginator.__init__`: page 0, not stopped. -/
def initState (nItems perPage : Nat) : PagState :=
  { nItems := nItems, perPage := perPage, page := 0, stopped := false }

/-- `ListPaginator.get_page_contents`: the slice
`self.things[page * per_page : page * per_page + per_page]`. -/
def get_page_contents {α : Type} (things : List α) (perPage page : Nat) : List α :=
  (things.drop (page * perPage)).take perPage

/-- A user-driven pager operation (a click on ◀ or ▶), together with the
outcome of the message edit it triggers. -/
inductive PagOp where
  | prev (e : EditResult)
  | next (e : EditResult)
deriving DecidableEq, Repr

def applyOp (s : PagState) : PagOp → PagState
  | .prev e => (previous s e).1
  | .next e => (Lifesaver.next s e).1

def runOps (s : PagState) (ops : List PagOp) : PagState :=
  ops.foldl applyOp s

/-! ### Reaction filtering — `Paginator.reaction_check` / `Paginator.actions`

Discord users and reactions are modelled by the attributes the code reads:
`user.bot`, `user == self.invoker` (discord.py compares users by identity
data, modelled as structural equality), `reaction.emoji` and
`reaction.message.id`. -/

structure DUser where
  id : Nat
  bot : Bool
deriving DecidableEq, Repr

structure DReaction where
  emoji : String
  messageId : Nat
deriving DecidableEq, Repr

/-- The pager identity data read by `reaction_check`: `self.invoker` and
`self.message.id`. -/
structure PagCtx where
  invoker : DUser
  messageId : Nat
deriving DecidableEq, Repr

def stopEmoji : String := "⏹"

def prevEmoji : String := "◀"

def nextEmoji : String := "▶"

/-- The keys of `Paginator.actions`, in declaration order. -/
def actionEmojis : List String := [stopEmoji, prevEmoji, nextEmoji]

/-- `Paginator.reaction_check`: `all` of the four listed conditions. -/
def reaction_check (p : PagCtx) (r : DReaction) (u : DUser) : Bool :=
  [!u.bot,
   actionEmojis.contains r.emoji,
   r.messageId == p.messageId,
   u == p.invoker].all (fun c => c)

/-- `Paginator.handle_reaction`: look the emoji up in `self.actions` and run
the action when found, with no effect otherwise. -/
def handle_reaction (s : PagState) (emoji : String) (e : EditResult) : PagState :=
  if emoji = stopEmoji then stop s
  else if emoji = prevEmoji then (previous s e).1
  else if emoji = nextEmoji then (Lifesaver.next s e).1
  else s

/-- One turn of `Paginator.handle_events` for an arriving reaction event:
`bot.wait_for` only delivers events passing `reaction_check`, so a rejected
event leaves the pager untouched. -/
def eventStep (p : PagCtx) (s : PagState) (r : DReaction) (u : DUser)
    (e : EditResult) : PagState :=
  if reaction_check p r u then handle_reaction s r.emoji e else s

/-! ### Scheduler model — `src/lifesaver/bot/cog.py`

`Cog.every(interval, **kwargs)` stores `{'interval': interval}` updated
with the keyword arguments as `func._schedule`.  `Cog._setup_schedules`
wraps each scheduled method in a loop that consults that dict by key
membership.  Dict values are modelled by `PyVal`; the sleep/invoke
behaviour of the wrapped coroutine is modelled as an event trace, with time
measured from the point after the optional `wait_until_ready` wait. -/

inductive PyVal where
  | int (n : Nat)
  | bool (b : Bool)
deriving DecidableEq, Repr

/-- The `func._schedule` dict built by `Cog.every`:
`{'interval': interval}` then `.update(kwargs)`. -/
def everySchedule (interval : Nat) (kwargs : List (String × PyVal)) :
    List (String × PyVal) :=
  dictUpdate [("interval", PyVal.int interval)] kwargs

/-- `schedule['interval']` as read by the wrapped loop. -/
def getInterval (d : List (String × PyVal)) : Nat :=
  match d.lookup "interval" with
  | some (.int n) => n
  | _ => 0

/-- The test `'wait_until_ready' in schedule` in the wrapped coroutine. -/
def waitsUntilReady (d : List (String × PyVal)) : Bool :=
  containsKey d "wait_until_ready"

/-- The test `'initial_sleep' in schedule` in the wrapped coroutine. -/
def hasInitialSleep (d : List (String × PyVal)) : Bool :=
  containsKey d "initial_sleep"

/-- An observable event of the wrapped loop: an `asyncio.sleep` of the given
duration, or an invocation of the scheduled method. -/
inductive Ev where
  | sleep (d : Nat)
  | invoke
deriving DecidableEq, Repr

/-- One iteration of the `while True` body in `_setup_schedules.wrapped`:
an extra `sleep(interval)` when `'initial_sleep' in schedule`, then the
invocation, then `sleep(interval)`. -/
def iterationEvents (d : List (String × PyVal)) : List Ev :=
  (if hasInitialSleep d then [Ev.sleep (getInterval d)] else []) ++
    [Ev.invoke, Ev.sleep (getInterval d)]

/-- The trace of the first `n` iterations of the wrapped loop. -/
def loopTrace (d : List (String × PyVal)) (n : Nat) : List Ev :=
  (List.replicate n (iterationEvents d)).flatten

/-- Elapsed sleeping time before the `k`-th invocation in an event list
(`none` when fewer than `k + 1` invocations occur). -/
def timeOfInvoke : List Ev → Nat → Option Nat
  | [], _ => none
  | Ev.sleep t :: rest, k => (timeOfInvoke rest k).map (fun s => t + s)
  | Ev.invoke :: _, 0 => some 0
  | Ev.invoke :: rest, k + 1 => timeOfInvoke rest k

/-- The time of the `k`-th invocation of a scheduled method, measured from
the start of the loop (after any readiness wait). -/
def invokeTime (d : List (String × PyVal)) (k : Nat) : Option Nat :=
  timeOfInvoke (loopTrace d (k + 1)) k

/-! ### Config model — `src/lifesaver/config.py`

YAML scalar and mapping values are modelled by `Val`; declared field types
(the `field_type` argument of `Field`, or `typing.Any`) by `Ty`.
`Config.__init__` walks the declared `Field` attributes in order, checks
for missing required fields, picks the loaded value or the default (`None`
when `optional=True` was given without a default), checks
`isinstance(value, field.type)` unless the type is `Any`, binds the value,
and finally (unless `strict`) updates `self.__dict__` with the whole
loaded mapping. -/

inductive Val where
  | vnone
  | vint (n : Int)
  | vstr (s : String)
  | vbool (b : Bool)
  | vdict (entries : List (String × Val))

inductive Ty where
  | tint
  | tstr
  | tbool
  | tdict
  | tany
deriving DecidableEq, Repr

/-- Python `isinstance` on the modelled values and types (`bool` is a
subclass of `int` in Python). -/
def isinstance : Val → Ty → Bool
  | .vint _, .tint => true
  | .vbool _, .tint => true
  | .vbool _, .tbool => true
  | .vstr _, .tstr => true
  | .vdict _, .tdict => true
  | _, _ => false

/-- A declared `Field`: its type, its default (`none` models `NO_DEFAULT`)
and the `optional` flag. -/
structure Field where
  type : Ty
  default : Option Val
  optional : Bool

/-- The value `Config.__init__` picks for a declared field:
`data.get(key, None if field.default is NO_DEFAULT else field.default)`. -/
def chosenValue (data : List (String × Val)) (key : String) (f : Field) : Val :=
  match data.lookup key with
  | some v => v
  | none => f.default.getD Val.vnone

/-- The field-binding loop of `Config.__init__` over the declared fields in
iteration order: raise `ConfigError` for a missing required field or a
failed `isinstance` check, otherwise bind the chosen value. -/
def bindFields : List (String × Field) → List (String × Val) →
    Except String (List (String × Val))
  | [], _ => .ok []
  | (key, f) :: rest, data =>
    if !(data.lookup key).isSome && !f.optional && f.default.isNone then
      .error ("Missing required config field: " ++ key)
    else
      if f.type ≠ Ty.tany && !isinstance (chosenValue data key f) f.type then
        .error ("Expected field value of declared type for " ++ key)
      else
        match bindFields rest data with
        | .error e => .error e
        | .ok tail => .ok ((key, chosenValue data key f) :: tail)

/-- `Config.__init__` as a whole: bind the declared fields, then (unless
`strict`) `self.__dict__.update(data)`. -/
def configInit (fields : List (String × Field)) (data : List (String × Val))
    (strict : Bool) : Except String (List (String × Val)) :=
  match bindFields fields data with
  | .error e => .error e
  | .ok bound => if strict then .ok bound else .ok (dictUpdate bound data)

/-- The first failure condition of the field loop, as a property: the field
is absent from the loaded data, not optional, and has no default. -/
def requiredMissing (data : List (String × Val)) (kf : String × Field) : Prop :=
  (data.lookup kf.1).isSome = false ∧ kf.2.optional = false ∧
    kf.2.default.isNone = true

/-- The second failure condition of the field loop, as a property: the
declared type is not `Any` and the chosen value fails `isinstance`. -/
def typeMismatch (data : List (String × Val)) (kf : String × Field) : Prop :=
  kf.2.type ≠ Ty.tany ∧ isinstance (chosenValue data kf.1 kf.2) kf.2.type = false

/-! ### Helper lemmas -/

lemma ceilDiv_le_mul (n p : Nat) (hp : 0 < p) : n ≤ ((n + p - 1) / p) * p := by
  have h2 : n + p - 1 < ((n + p - 1) / p + 1) * p :=
    (Nat.div_lt_iff_lt_mul hp).mp (Nat.lt_succ_self _)
  rw [Nat.succ_mul] at h2
  omega

lemma ceilDiv_min (n p k : Nat) (hp : 0 < p) (h : n ≤ k * p) :
    (n + p - 1) / p ≤ k := by
  have hlt : n + p - 1 < (k + 1) * p := by
    have hkp : (k + 1) * p = k * p + p := by ring
    omega
  exact Nat.lt_succ_iff.mp ((Nat.div_lt_iff_lt_mul hp).mpr hlt)

lemma ceilDiv_pos_iff (n p : Nat) (hp : 0 < p) :
    1 ≤ (n + p - 1) / p ↔ 1 ≤ n := by
  rw [Nat.le_div_iff_mul_le hp, one_mul]
  omega

lemma max_pages_ext (s t : PagState) (hn : s.nItems = t.nItems)
    (hp : s.perPage = t.perPage) : max_pages s = max_pages t := by
  unfold max_pages
  rw [hn, hp]

lemma update_preserves (s : PagState) (e : EditResult) :
    (update s e).1.page = s.page ∧ (update s e).1.nItems = s.nItems ∧
      (update s e).1.perPage = s.perPage := by
  unfold update
  split
  · exact ⟨rfl, rfl, rfl⟩
  · cases e
    · exact ⟨rfl, rfl, rfl⟩
    · exact ⟨rfl, rfl, rfl⟩

lemma previous_dims (s : PagState) (e : EditResult) :
    (previous s e).1.nItems = s.nItems ∧ (previous s e).1.perPage = s.perPage := by
  unfold previous
  split
  · exact ⟨rfl, rfl⟩
  · exact ⟨(update_preserves _ _).2.1, (update_preserves _ _).2.2⟩

lemma next_dims (s : PagState) (e : EditResult) :
    (next s e).1.nItems = s.nItems ∧ (next s e).1.perPage = s.perPage := by
  unfold next
  split
  · exact ⟨rfl, rfl⟩
  · exact ⟨(update_preserves _ _).2.1, (update_preserves _ _).2.2⟩

lemma previous_page_lt (s : PagState) (e : EditResult) (h : s.page < max_pages s) :
    (previous s e).1.page < max_pages s := by
  unfold previous
  split
  · exact h
  · rw [(update_preserves _ _).1]
    exact Nat.lt_of_le_of_lt (Nat.sub_le _ _) h

lemma next_page_lt (s : PagState) (e : EditResult) (h : s.page < max_pages s) :
    (next s e).1.page < max_pages s := by
  unfold next
  split
  · exact h
  · rw [(update_preserves _ _).1]
    rename_i hne
    show s.page + 1 < max_pages s
    omega

lemma applyOp_dims (s : PagState) (op : PagOp) :
    (applyOp s op).nItems = s.nItems ∧ (applyOp s op).perPage = s.perPage := by
  cases op with
  | prev e => simpa only [applyOp] using previous_dims s e
  | next e => simpa only [applyOp] using next_dims s e

lemma applyOp_page_lt (s : PagState) (op : PagOp) (h : s.page < max_pages s) :
    (applyOp s op).page < max_pages (applyOp s op) := by
  have hmax : max_pages (applyOp s op) = max_pages s :=
    max_pages_ext _ _ (applyOp_dims s op).1 (applyOp_dims s op).2
  rw [hmax]
  cases op with
  | prev e => simpa only [applyOp] using previous_page_lt s e h
  | next e => simpa only [applyOp] using next_page_lt s e h

lemma runOps_page_lt (s : PagState) (ops : List PagOp) (h : s.page < max_pages s) :
    (runOps s ops).page < max_pages (runOps s ops) := by
  induction ops generalizing s with
  | nil => exact h
  | cons op rest ih =>
    show (runOps (applyOp s op) rest).page < max_pages (runOps (applyOp s op) rest)
    exact ih _ (applyOp_page_lt s op h)

lemma update_stopped (s : PagState) (e : EditResult) (h : s.stopped = true) :
    update s e = (s, false) := by
  unfold update
  rw [h]
  simp

/-! ### Claims about the pager -/

/-- Claim C2, counterexample: with 0 items and page size 10 the pager
reports `max_pages = 0`, so `max_pages` is not at least 1 when N = 0. -/
theorem c2_counterexample :
    max_pages (initState 0 10) = 0 ∧ ¬(1 ≤ max_pages (initState 0 10)) := by
  decide

/-- Claim C2 (amended): for every list of N items and page size P > 0,
`max_pages` equals `ceil(N/P)` (the least k with N ≤ k·P); it is at least 1
exactly when N ≥ 1, and it is 0 — not 1 — when N = 0. -/
theorem c2_max_pages_ceil (n p : Nat) (hp : 0 < p) :
    n ≤ max_pages (initState n p) * p ∧
    (∀ k : Nat, n ≤ k * p → max_pages (initState n p) ≤ k) ∧
    (1 ≤ max_pages (initState n p) ↔ 1 ≤ n) := by
  refine ⟨ceilDiv_le_mul n p hp, fun k hk => ceilDiv_min n p k hp hk,
    ceilDiv_pos_iff n p hp⟩

/-- Claim C2 witness: instance at 23 items, page size 10. -/
theorem c2_max_pages_ceil_witness :
    (0 : Nat) < 10 ∧ 23 ≤ max_pages (initState 23 10) * 10 :=
  ⟨by decide, (c2_max_pages_ceil 23 10 (by decide)).1⟩

/-- Claim C3, counterexample: with 0 items and page size 10 the initial
state (reachable by the empty operation sequence) already violates the
invariant — its page index 0 is not below `max_pages = 0`. -/
theorem c3_counterexample :
    ¬((runOps (initState 0 10) []).page <
        max_pages (runOps (initState 0 10) [])) := by
  decide

/-- Claim C3 (amended): for every item count N ≥ 1 and page size P ≥ 1, in
every state reachable from the initial state by `previous`/`next` clicks the
page index is a valid index into the page range, i.e. below `max_pages`. -/
theorem c3_page_in_range (n p : Nat) (ops : List PagOp) (hn : 1 ≤ n)
    (hp : 1 ≤ p) :
    (runOps (initState n p) ops).page < max_pages (runOps (initState n p) ops) := by
  apply runOps_page_lt
  exact (ceilDiv_pos_iff n p hp).mpr hn

/-- Claim C3 witness: 23 items, page size 10, after one `next` click. -/
theorem c3_page_in_range_witness :
    (runOps (initState 23 10) [PagOp.next EditResult.ok]).page <
      max_pages (runOps (initState 23 10) [PagOp.next EditResult.ok]) :=
  c3_page_in_range 23 10 [PagOp.next EditResult.ok] (by decide) (by decide)

/-- Claim C4: `previous` at page 0 and `next` at page `max_pages - 1` leave
the state unchanged and perform no re-render; with 23 items and page size
10 the pages slice as items 0–9 / 10–19 / 20–22, two `next` clicks from
page 0 reach page 2, and a third `next` is a no-op. -/
theorem c4_boundary_noop :
    (∀ (s : PagState) (e : EditResult), s.page = 0 → previous s e = (s, false)) ∧
    (∀ (s : PagState) (e : EditResult),
      (s.page : Int) = (max_pages s : Int) - 1 → next s e = (s, false)) ∧
    (get_page_contents (List.range 23) 10 0 = List.range' 0 10 ∧
      get_page_contents (List.range 23) 10 1 = List.range' 10 10 ∧
      get_page_contents (List.range 23) 10 2 = List.range' 20 3) ∧
    ((runOps (initState 23 10) [PagOp.next EditResult.ok, PagOp.next EditResult.ok]).page = 2 ∧
      next (runOps (initState 23 10) [PagOp.next EditResult.ok, PagOp.next EditResult.ok])
          EditResult.ok =
        (runOps (initState 23 10) [PagOp.next EditResult.ok, PagOp.next EditResult.ok],
          false)) := by
  refine ⟨?_, ?_, by decide, by decide⟩
  · intro s e h
    unfold previous
    simp [h]
  · intro s e h
    unfold next
    simp [h]

/-- Claim C4 witness: `previous` on the freshly created 23-item pager (page
0) is a no-op. -/
theorem c4_boundary_noop_witness :
    previous (initState 23 10) EditResult.ok = (initState 23 10, false) :=
  c4_boundary_noop.1 (initState 23 10) EditResult.ok rfl

/-- Claim C5, counterexample: after `stop` on a pager sitting at page 1, a
further `previous` call still changes the state — it moves the page index
back to 0 (no re-render happens, but the claim says the state never
changes). -/
theorem c5_counterexample :
    (stop (PagState.mk 23 10 1 false)).stopped = true ∧
    (previous (stop (PagState.mk 23 10 1 false)) EditResult.ok).1 ≠
      stop (PagState.mk 23 10 1 false) ∧
    (previous (stop (PagState.mk 23 10 1 false)) EditResult.ok).1.page = 0 := by
  decide

/-- Claim C5 (amended): once `stop` has run, subsequent `next`/`previous`
calls never perform a re-render and the pager stays stopped forever; the
page index, however, can still change (see the counterexample). -/
theorem c5_stopped_no_rerender (s : PagState) (e : EditResult)
    (h : s.stopped = true) :
    (next s e).2 = false ∧ (next s e).1.stopped = true ∧
    (previous s e).2 = false ∧ (previous s e).1.stopped = true := by
  have hn : (next s e).2 = false ∧ (next s e).1.stopped = true := by
    unfold next
    split
    · exact ⟨rfl, h⟩
    · rw [update_stopped { s with page := s.page + 1 } e h]
      exact ⟨rfl, h⟩
  have hp : (previous s e).2 = false ∧ (previous s e).1.stopped = true := by
    unfold previous
    split
    · exact ⟨rfl, h⟩
    · rw [update_stopped { s with page := s.page - 1 } e h]
      exact ⟨rfl, h⟩
  exact ⟨hn.1, hn.2, hp.1, hp.2⟩

/-- Claim C5 witness: instance on a stopped 23-item pager. -/
theorem c5_stopped_no_rerender_witness :
    (next (stop (initState 23 10)) EditResult.ok).2 = false :=
  (c5_stopped_no_rerender (stop (initState 23 10)) EditResult.ok rfl).1

/-- Claim C6: `reaction_check` accepts an event exactly when the reacting
user is not a bot, the emoji is one of the three controls, the reaction
targets the pager message, and the user is the invoker; a rejected event
leaves the pager state unchanged. -/
theorem c6_reaction_filter (p : PagCtx) (r : DReaction) (u : DUser)
    (s : PagState) (e : EditResult) :
    (reaction_check p r u = true ↔
      (u.bot = false ∧ r.emoji ∈ actionEmojis ∧ r.messageId = p.messageId ∧
        u = p.invoker)) ∧
    (reaction_check p r u = false → eventStep p s r u e = s) := by
  constructor
  · simp [reaction_check, List.all, Bool.not_eq_true']
  · intro h
    simp [eventStep, h]

/-- Claim C6 witness: a reaction from a bot account is rejected and changes
nothing. -/
theorem c6_reaction_filter_witness :
    eventStep (PagCtx.mk (DUser.mk 1 false) 5) (initState 23 10)
        (DReaction.mk "▶" 5) (DUser.mk 2 true) EditResult.ok =
      initState 23 10 :=
  (c6_reaction_filter (PagCtx.mk (DUser.mk 1 false) 5) (DReaction.mk "▶" 5)
      (DUser.mk 2 true) (initState 23 10) EditResult.ok).2 (by decide)

/-- Claim C7: when the message edit inside `update` reports not-found, a
non-stopped pager transitions to stopped, the rest of the state is
unchanged, and no error is propagated (the operation returns normally). -/
theorem c7_update_not_found (s : PagState) (h : s.stopped = false) :
    update s EditResult.notFound = ({ s with stopped := true }, true) := by
  unfold update
  rw [h]
  simp

/-- Claim C7 witness: instance on the fresh 23-item pager. -/
theorem c7_update_not_found_witness :
    update (initState 23 10) EditResult.notFound =
      ({ initState 23 10 with stopped := true }, true) :=
  c7_update_not_found (initState 23 10) rfl

/-! ### Scheduler lemmas -/

lemma containsKey_cons {α : Type} (a : String × α) (tl : List (String × α))
    (k : String) : containsKey (a :: tl) k = (a.1 == k || containsKey tl k) := by
  simp [containsKey]

lemma containsKey_setKey {α : Type} (d : List (String × α)) (kv : String × α)
    (k : String) :
    containsKey (setKey d kv) k = (containsKey d k || (kv.1 == k)) := by
  induction d with
  | nil => simp [setKey, containsKey]
  | cons hd tl ih =>
    obtain ⟨k', v⟩ := hd
    simp only [setKey]
    split
    · rename_i he
      rw [containsKey_cons, containsKey_cons]
      rw [he]
      cases h1 : (kv.1 == k) <;> cases h2 : containsKey tl k <;> simp
    · rw [containsKey_cons, containsKey_cons, ih]
      cases h1 : ((k', v).1 == k) <;> simp

lemma containsKey_dictUpdate {α : Type} (d new : List (String × α)) (k : String) :
    containsKey (dictUpdate d new) k = (containsKey d k || containsKey new k) := by
  induction new generalizing d with
  | nil => simp [dictUpdate, containsKey]
  | cons kv rest ih =>
    show containsKey (dictUpdate (setKey d kv) rest) k = _
    rw [ih, containsKey_setKey, containsKey_cons]
    cases h1 : containsKey d k <;> cases h2 : (kv.1 == k) <;> simp

lemma containsKey_eq_keys {α : Type} (d : List (String × α)) (k : String) :
    containsKey d k = (d.map Prod.fst).any (fun x => x == k) := by
  induction d with
  | nil => rfl
  | cons hd tl ih =>
    simp [containsKey] at ih ⊢
    rw [ih]

lemma lookup_setKey_ne {α : Type} (d : List (String × α)) (kv : String × α)
    (k : String) (h : kv.1 ≠ k) : (setKey d kv).lookup k = d.lookup k := by
  induction d with
  | nil =>
    have hk : (k == kv.1) = false := by
      simp
      exact fun he => h he.symm
    simp [setKey, List.lookup, hk]
  | cons hd tl ih =>
    obtain ⟨k', v⟩ := hd
    simp only [setKey]
    split
    · rename_i he
      have hk : (k == kv.1) = false := by
        simp
        exact fun he2 => h he2.symm
      have hk' : (k == k') = false := by
        simp
        exact fun he2 => h (he2.trans he).symm
      simp [List.lookup, hk, hk']
    · simp only [List.lookup]
      split
      · rfl
      · exact ih

lemma lookup_dictUpdate_not_mem {α : Type} (d new : List (String × α)) (k : String)
    (h : ∀ kv ∈ new, kv.1 ≠ k) : (dictUpdate d new).lookup k = d.lookup k := by
  induction new generalizing d with
  | nil => rfl
  | cons kv rest ih =>
    show (dictUpdate (setKey d kv) rest).lookup k = _
    rw [ih _ (fun kv2 h2 => h kv2 (List.mem_cons_of_mem kv h2))]
    exact lookup_setKey_ne d kv k (h kv (List.mem_cons_self kv rest))

lemma getInterval_everySchedule (i : Nat) (kwargs : List (String × PyVal))
    (h : "interval" ∉ kwargs.map Prod.fst) :
    getInterval (everySchedule i kwargs) = i := by
  unfold getInterval everySchedule
  rw [lookup_dictUpdate_not_mem]
  · rfl
  · intro kv hkv he
    exact h (he ▸ List.mem_map_of_mem Prod.fst hkv)

lemma loopTrace_succ (d : List (String × PyVal)) (n : Nat) :
    loopTrace d (n + 1) = iterationEvents d ++ loopTrace d n := by
  unfold loopTrace
  rw [List.replicate_succ, List.flatten_cons]

lemma invokeTime_eq (d : List (String × PyVal)) (k : Nat) :
    invokeTime d k =
      some ((if hasInitialSleep d then 2 * k + 1 else k) * getInterval d) := by
  induction k with
  | zero =>
    unfold invokeTime
    rw [loopTrace_succ]
    cases hf : hasInitialSleep d
    · simp [iterationEvents, hf, timeOfInvoke]
    · simp [iterationEvents, hf, timeOfInvoke]
  | succ k ih =>
    unfold invokeTime at ih ⊢
    rw [loopTrace_succ]
    cases hf : hasInitialSleep d
    · simp [hf] at ih
      simp [iterationEvents, hf, timeOfInvoke, ih]
      ring
    · simp [hf] at ih
      simp [iterationEvents, hf, timeOfInvoke, ih]
      ring

/-! ### Claims about the scheduler -/

/-- Claim C1, counterexample: with interval 5 and no `initial_sleep` the
first invocation happens at time 0 (immediately), not after one interval;
with `initial_sleep` the first invocation happens after one interval (5),
not two, and the second follows after two further intervals (at 15), not
one. -/
theorem c1_counterexample :
    invokeTime (everySchedule 5 []) 0 = some 0 ∧ (0 : Nat) < 5 ∧
    invokeTime (everySchedule 5 [("initial_sleep", PyVal.bool true)]) 0 = some 5 ∧
    invokeTime (everySchedule 5 [("initial_sleep", PyVal.bool true)]) 1 = some 15 ∧
    (15 : Nat) - 5 ≠ 5 := by
  decide

/-- Claim C1 (amended): after any readiness wait, the trace of a scheduled
operation is as follows.  Without `initial_sleep` the loop body is
"invoke, sleep interval", so the k-th invocation occurs at time
k·interval — the first one immediately at time zero.  With `initial_sleep`
an extra sleep precedes the invocation on every iteration (the membership
test sits inside the loop), so the k-th invocation occurs at
(2k+1)·interval — the first after one interval and consecutive invocations
separated by two intervals. -/
theorem c1_schedule_trace (d : List (String × PyVal)) (k : Nat) :
    invokeTime d k =
      some ((if hasInitialSleep d then 2 * k + 1 else k) * getInterval d) :=
  invokeTime_eq d k

/-- Claim C10: the scheduler option flags are presence-based.  The wrapped
loop waits for readiness, respectively adds the per-iteration extra sleep,
exactly when the corresponding key was passed to `every` at all; two
keyword-argument lists with the same keys (whatever the values, e.g.
`False` versus `True`) produce identical behaviour, and when `interval` is
not among the keyword keys the whole invocation trace coincides. -/
theorem c10_presence_flags (interval : Nat)
    (kwargs₁ kwargs₂ : List (String × PyVal))
    (hkeys : kwargs₁.map Prod.fst = kwargs₂.map Prod.fst) :
    waitsUntilReady (everySchedule interval kwargs₁) =
      containsKey kwargs₁ "wait_until_ready" ∧
    hasInitialSleep (everySchedule interval kwargs₁) =
      containsKey kwargs₁ "initial_sleep" ∧
    waitsUntilReady (everySchedule interval kwargs₁) =
      waitsUntilReady (everySchedule interval kwargs₂) ∧
    hasInitialSleep (everySchedule interval kwargs₁) =
      hasInitialSleep (everySchedule interval kwargs₂) ∧
    ("interval" ∉ kwargs₁.map Prod.fst →
      ∀ k, invokeTime (everySchedule interval kwargs₁) k =
        invokeTime (everySchedule interval kwargs₂) k) := by
  have hck : ∀ k, containsKey kwargs₁ k = containsKey kwargs₂ k := by
    intro k
    rw [containsKey_eq_keys, containsKey_eq_keys, hkeys]
  have hwr :
      waitsUntilReady (everySchedule interval kwargs₁) =
        containsKey kwargs₁ "wait_until_ready" := by
    unfold waitsUntilReady everySchedule
    rw [containsKey_dictUpdate]
    simp [containsKey]
  have his :
      hasInitialSleep (everySchedule interval kwargs₁) =
        containsKey kwargs₁ "initial_sleep" := by
    unfold hasInitialSleep everySchedule
    rw [containsKey_dictUpdate]
    simp [containsKey]
  have hwr2 :
      waitsUntilReady (everySchedule interval kwargs₂) =
        containsKey kwargs₂ "wait_until_ready" := by
    unfold waitsUntilReady everySchedule
    rw [containsKey_dictUpdate]
    simp [containsKey]
  have his2 :
      hasInitialSleep (everySchedule interval kwargs₂) =
        containsKey kwargs₂ "initial_sleep" := by
    unfold hasInitialSleep everySchedule
    rw [containsKey_dictUpdate]
    simp [containsKey]
  refine ⟨hwr, his, ?_, ?_, ?_⟩
  · rw [hwr, hwr2, hck]
  · rw [his, his2, hck]
  · intro hni k
    rw [invokeTime_eq, invokeTime_eq]
    rw [his, his2, hck]
    rw [getInterval_everySchedule interval kwargs₁ hni,
      getInterval_everySchedule interval kwargs₂ (hkeys ▸ hni)]

/-- Claim C10 witness: passing `initial_sleep=False` enables the extra
sleep exactly like `initial_sleep=True`. -/
theorem c10_presence_flags_witness :
    hasInitialSleep (everySchedule 5 [("initial_sleep", PyVal.bool false)]) =
      hasInitialSleep (everySchedule 5 [("initial_sleep", PyVal.bool true)]) :=
  (c10_presence_flags 5 [("initial_sleep", PyVal.bool false)]
      [("initial_sleep", PyVal.bool true)] rfl).2.2.2.1

/-! ### Config lemmas -/

lemma lookup_none_of_not_mem {α : Type} (d : List (String × α)) (k : String)
    (h : k ∉ d.map Prod.fst) : d.lookup k = none := by
  induction d with
  | nil => rfl
  | cons hd tl ih =>
    obtain ⟨k', v⟩ := hd
    simp only [List.map_cons, List.mem_cons, not_or] at h
    have hb : (k == k') = false := beq_eq_false_iff_ne.mpr h.1
    simp only [List.lookup, hb]
    exact ih h.2

lemma lookup_setKey_self {α : Type} (d : List (String × α)) (kv : String × α) :
    (setKey d kv).lookup kv.1 = some kv.2 := by
  induction d with
  | nil => simp [setKey, List.lookup]
  | cons hd tl ih =>
    obtain ⟨k', v⟩ := hd
    simp only [setKey]
    split
    · simp [List.lookup]
    · rename_i he
      have hb : (kv.1 == k') = false :=
        beq_eq_false_iff_ne.mpr (fun hh => he hh.symm)
      simp only [List.lookup, hb]
      exact ih

lemma lookup_dictUpdate {α : Type} (d new : List (String × α)) (k : String)
    (hnew : (new.map Prod.fst).Nodup) :
    (dictUpdate d new).lookup k =
      match new.lookup k with
      | some v => some v
      | none => d.lookup k := by
  induction new generalizing d with
  | nil => rfl
  | cons kv rest ih =>
    obtain ⟨k1, v1⟩ := kv
    simp only [List.map_cons, List.nodup_cons] at hnew
    show (dictUpdate (setKey d (k1, v1)) rest).lookup k = _
    rw [ih _ hnew.2]
    by_cases hk : k = k1
    · subst hk
      rw [lookup_none_of_not_mem rest k hnew.1]
      have hself := lookup_setKey_self d (k, v1)
      simp only [List.lookup, beq_self_eq_true]
      simpa using hself
    · have hne : (k1, v1).1 ≠ k := fun hh => hk hh.symm
      rw [lookup_setKey_ne d (k1, v1) k hne]
      have hb : (k == k1) = false := beq_eq_false_iff_ne.mpr hk
      simp [List.lookup, hb]

lemma bindFields_error_iff (fields : List (String × Field))
    (data : List (String × Val)) :
    (bindFields fields data).isOk = false ↔
      ∃ kf ∈ fields, requiredMissing data kf ∨ typeMismatch data kf := by
  induction fields with
  | nil => simp [bindFields, Except.isOk, Except.toBool]
  | cons kf rest ih =>
    obtain ⟨key, f⟩ := kf
    simp only [bindFields]
    split
    · rename_i hmiss
      refine iff_of_true rfl ?_
      simp only [Bool.and_eq_true, Bool.not_eq_true'] at hmiss
      exact ⟨(key, f), List.mem_cons_self _ _,
        Or.inl ⟨hmiss.1.1, hmiss.1.2, hmiss.2⟩⟩
    · rename_i hmiss
      split
      · rename_i hty
        refine iff_of_true rfl ?_
        simp only [Bool.and_eq_true, Bool.not_eq_true', decide_eq_true_eq] at hty
        exact ⟨(key, f), List.mem_cons_self _ _, Or.inr ⟨hty.1, hty.2⟩⟩
      · rename_i hty
        cases hrest : bindFields rest data with
        | error e =>
          refine iff_of_true rfl ?_
          obtain ⟨kf2, hm2, hp2⟩ := ih.mp (by rw [hrest]; rfl)
          exact ⟨kf2, List.mem_cons_of_mem _ hm2, hp2⟩
        | ok tail =>
          refine iff_of_false (by simp [Except.isOk, Except.toBool]) ?_
          rintro ⟨kf2, hm2, hp2⟩
          rcases List.mem_cons.mp hm2 with he | hm3
          · rw [he] at hp2
            rcases hp2 with hreq | hty2
            · apply hmiss
              simp only [Bool.and_eq_true, Bool.not_eq_true']
              exact ⟨⟨hreq.1, hreq.2.1⟩, hreq.2.2⟩
            · apply hty
              simp only [Bool.and_eq_true, Bool.not_eq_true', decide_eq_true_eq]
              exact ⟨hty2.1, hty2.2⟩
          · have hbad : (bindFields rest data).isOk = false :=
              ih.mpr ⟨kf2, hm3, hp2⟩
            rw [hrest] at hbad
            simp [Except.isOk, Except.toBool] at hbad

lemma bindFields_ok_shape (fields : List (String × Field))
    (data : List (String × Val)) (out : List (String × Val))
    (h : bindFields fields data = Except.ok out) :
    out = fields.map (fun kf => (kf.1, chosenValue data kf.1 kf.2)) := by
  induction fields generalizing out with
  | nil =>
    simp only [bindFields, Except.ok.injEq] at h
    simp [← h]
  | cons kf rest ih =>
    obtain ⟨key, f⟩ := kf
    simp only [bindFields] at h
    split at h
    · exact absurd h (by simp)
    · split at h
      · exact absurd h (by simp)
      · cases hrest : bindFields rest data with
        | error e =>
          rw [hrest] at h
          exact absurd h (by simp)
        | ok tail =>
          rw [hrest] at h
          simp only [Except.ok.injEq] at h
          rw [← h, List.map_cons]
          exact congrArg (List.cons _) (ih tail hrest)

lemma lookup_map_chosen (fields : List (String × Field))
    (data : List (String × Val)) (hf : (fields.map Prod.fst).Nodup)
    (kf : String × Field) (hmem : kf ∈ fields) :
    (fields.map (fun kf2 => (kf2.1, chosenValue data kf2.1 kf2.2))).lookup kf.1 =
      some (chosenValue data kf.1 kf.2) := by
  induction fields with
  | nil => cases hmem
  | cons hd tl ih =>
    simp only [List.map_cons, List.nodup_cons] at hf
    rcases List.mem_cons.mp hmem with he | hm
    · subst he
      simp [List.lookup]
    · have hne : hd.1 ≠ kf.1 := by
        intro hh
        have hmk : kf.1 ∈ tl.map Prod.fst := List.mem_map_of_mem Prod.fst hm
        rw [← hh] at hmk
        exact hf.1 hmk
      have hb : (kf.1 == hd.1) = false :=
        beq_eq_false_iff_ne.mpr (fun hh => hne hh.symm)
      simp only [List.map_cons, List.lookup, hb]
      exact ih hf.2 hm

lemma configInit_isOk (fields : List (String × Field))
    (data : List (String × Val)) (strict : Bool) :
    (configInit fields data strict).isOk = (bindFields fields data).isOk := by
  unfold configInit
  cases bindFields fields data with
  | error e => rfl
  | ok bound => cases strict <;> simp [Except.isOk, Except.toBool]

lemma configInit_binding (fields : List (String × Field))
    (data : List (String × Val)) (strict : Bool)
    (hf : (fields.map Prod.fst).Nodup) (hd : (data.map Prod.fst).Nodup)
    (out : List (String × Val))
    (hok : configInit fields data strict = Except.ok out) :
    ∀ kf ∈ fields, out.lookup kf.1 = some (chosenValue data kf.1 kf.2) := by
  intro kf hmem
  unfold configInit at hok
  cases hrest : bindFields fields data with
  | error e =>
    rw [hrest] at hok
    exact absurd hok (by simp)
  | ok bound =>
    rw [hrest] at hok
    have hshape := bindFields_ok_shape fields data bound hrest
    have hbound : bound.lookup kf.1 = some (chosenValue data kf.1 kf.2) := by
      rw [hshape]
      exact lookup_map_chosen fields data hf kf hmem
    cases strict with
    | false =>
      simp only [Bool.false_eq_true, if_false] at hok
      rw [Except.ok.injEq] at hok
      rw [← hok]
      rw [lookup_dictUpdate bound data kf.1 hd]
      cases hdl : data.lookup kf.1 with
      | none => simpa using hbound
      | some v => simp [chosenValue, hdl]
    | true =>
      simp only [if_true] at hok
      rw [Except.ok.injEq] at hok
      rw [← hok]
      exact hbound

/-! ### Claims about the config loader -/

/-- Claim C8: `Config` construction fails if and only if some declared
field is required (non-optional, no default) and absent, or the value
chosen for a declared typed field — the loaded value, else the default,
else `None` — fails the `isinstance` check against its declared type; on
success every declared field is bound to its chosen value. -/
theorem c8_config_error_iff (fields : List (String × Field))
    (data : List (String × Val)) (strict : Bool)
    (hf : (fields.map Prod.fst).Nodup) (hd : (data.map Prod.fst).Nodup) :
    ((configInit fields data strict).isOk = false ↔
      ∃ kf ∈ fields, requiredMissing data kf ∨ typeMismatch data kf) ∧
    (∀ out, configInit fields data strict = Except.ok out →
      ∀ kf ∈ fields, out.lookup kf.1 = some (chosenValue data kf.1 kf.2)) := by
  constructor
  · rw [configInit_isOk]
    exact bindFields_error_iff fields data
  · intro out hok
    exact configInit_binding fields data strict hf hd out hok

/-- Claim C8 witness: a declared required `str` field with no default and
absent from the loaded data makes construction fail. -/
theorem c8_config_error_iff_witness :
    (configInit [("token", Field.mk Ty.tstr none false)] [] false).isOk = false :=
  (c8_config_error_iff [("token", Field.mk Ty.tstr none false)] [] false
      (by simp) (by simp)).1.mpr
    ⟨("token", Field.mk Ty.tstr none false), List.mem_cons_self _ _,
      Or.inl ⟨rfl, rfl, rfl⟩⟩

/-- Claim C9, counterexample: with class defaults
`retries = 3, limits = {max: 10, min: 1}` and loaded data
`{limits: {max: 20}}`, construction binds `limits` to exactly the loaded
mapping `{max: 20}` — the key `min`, absent from the loaded nested mapping,
is discarded rather than kept at its default value 1. -/
theorem c9_counterexample :
    configInit
        [("limits", Field.mk Ty.tdict
            (some (Val.vdict [("max", Val.vint 10), ("min", Val.vint 1)])) false),
          ("retries", Field.mk Ty.tint (some (Val.vint 3)) false)]
        [("limits", Val.vdict [("max", Val.vint 20)])] false =
      Except.ok [("limits", Val.vdict [("max", Val.vint 20)]),
        ("retries", Val.vint 3)] ∧
    List.lookup "min" [("max", Val.vint 20)] = none ∧
    (none : Option Val) ≠ some (Val.vint 1) := by
  refine ⟨rfl, rfl, by simp⟩

/-- Claim C9 (amended): loading performs no nested merging — a declared
field present in the loaded document is bound to the loaded value outright,
whatever its shape; the scenario defaults `{retries: 3, limits: {max: 10}}`
with loaded `{limits: {max: 20}}` still yields
`{retries: 3, limits: {max: 20}}` only because the nested default has no
key outside the loaded mapping. -/
theorem c9_loaded_overwrites (fields : List (String × Field))
    (data : List (String × Val)) (strict : Bool) (out : List (String × Val))
    (key : String) (f : Field) (v : Val)
    (hf : (fields.map Prod.fst).Nodup) (hd : (data.map Prod.fst).Nodup)
    (hok : configInit fields data strict = Except.ok out)
    (hmem : (key, f) ∈ fields) (hlookup : data.lookup key = some v) :
    out.lookup key = some v := by
  have hb := configInit_binding fields data strict hf hd out hok (key, f) hmem
  rw [hb]
  simp [chosenValue, hlookup]

/-- Claim C9 witness: the exact scenario from the specification —
defaults `retries = 3`, `limits = {max: 10}`, loaded `{limits: {max: 20}}` —
yields `retries = 3` and `limits = {max: 20}`. -/
theorem c9_loaded_overwrites_witness :
    configInit
        [("limits", Field.mk Ty.tdict (some (Val.vdict [("max", Val.vint 10)])) false),
          ("retries", Field.mk Ty.tint (some (Val.vint 3)) false)]
        [("limits", Val.vdict [("max", Val.vint 20)])] false =
      Except.ok [("limits", Val.vdict [("max", Val.vint 20)]),
        ("retries", Val.vint 3)] ∧
    List.lookup "limits"
        [("limits", Val.vdict [("max", Val.vint 20)]), ("retries", Val.vint 3)] =
      some (Val.vdict [("max", Val.vint 20)]) ∧
    List.lookup "retries"
        [("limits", Val.vdict [("max", Val.vint 20)]), ("retries", Val.vint 3)] =
      some (Val.vint 3) :=
  ⟨rfl,
    c9_loaded_overwrites
      [("limits", Field.mk Ty.tdict (some (Val.vdict [("max", Val.vint 10)])) false),
        ("retries", Field.mk Ty.tint (some (Val.vint 3)) false)]
      [("limits", Val.vdict [("max", Val.vint 20)])] false
      [("limits", Val.vdict [("max", Val.vint 20)]), ("retries", Val.vint 3)]
      "limits" (Field.mk Ty.tdict (some (Val.vdict [("max", Val.vint 10)])) false)
      (Val.vdict [("max", Val.vint 20)])
      (by simp) (by simp) rfl (List.mem_cons_self _ _) rfl,
    rfl⟩

end Lifesaver

